import Mathlib

/-!
Verification of the HedgeSync hedging-analysis pipeline.

This file embeds the quantitative core of the repository
(`backtest_engine.py`, `hedge_ratio_calculator.py`, `stress_test.py`,
`data_processor.py`) as executable Lean definitions over exact rational
arithmetic, and proves or refutes the frozen specification claims.

Modelling conventions:
* pandas `NaN` cells are modelled as `Option ℚ` with `none` standing for
  NaN (and for non-finite values generally); arithmetic on such cells
  propagates `none` exactly as NaN propagates, and comparisons with NaN
  are `false` exactly as in numpy/pandas.
* Python exceptions are modelled with `Except String`; the message
  records which exception the source raises there.
* Quantities whose source value involves a square root of a sample
  variance (pandas `.std()`) are irrational in general; where only the
  guard on such a value matters the model keeps the (rational) variance
  and notes that `std > 0 ↔ var > 0` and `std = 0 ↔ var = 0`.
-/

namespace HedgeSync

/-- One row of an aligned spot/futures series (`aligned_data` in the
source): a date (encoded as a natural day number) with one spot and one
future price. -/
structure PricePoint where
  date : ℕ
  spot_price : ℚ
  future_price : ℚ
deriving DecidableEq

/-- `HedgeDirection` enum from `backtest_engine.py`. -/
inductive HedgeDirection where
  | long_hedge
  | short_hedge
deriving DecidableEq

/-- The `.value` string of the enum member. -/
def HedgeDirection.value : HedgeDirection → String
  | .long_hedge => "long_hedge"
  | .short_hedge => "short_hedge"

/-- pandas `Series.diff()`: first entry NaN, then consecutive
differences. -/
def pdDiff (xs : List ℚ) : List (Option ℚ) :=
  match xs with
  | [] => []
  | x :: rest => none :: List.zipWith (fun b a => some (b - a)) rest (x :: rest)

/-- Addition of two NaN-able cells (NaN propagates). -/
def optAdd : Option ℚ → Option ℚ → Option ℚ
  | some a, some b => some (a + b)
  | _, _ => none

/-- pandas `Series.cumsum()` with default `skipna=True`: NaN entries
stay NaN and contribute nothing to the running sum. -/
def cumsumSkipna (acc : ℚ) : List (Option ℚ) → List (Option ℚ)
  | [] => []
  | none :: rest => none :: cumsumSkipna acc rest
  | some v :: rest => some (acc + v) :: cumsumSkipna (acc + v) rest

/-- A row of the backtest frame before `dropna()`: the raw columns plus
the derived (NaN-able) columns added by `run_backtest`. -/
structure RawRow where
  date : ℕ
  spot_price : ℚ
  future_price : ℚ
  spot_price_change : Option ℚ
  future_price_change : Option ℚ
  spot_pnl : Option ℚ
  future_pnl : Option ℚ
  total_pnl : Option ℚ
  unhedged_pnl : Option ℚ
  total_pnl_cumulative : Option ℚ
  unhedged_pnl_cumulative : Option ℚ
  spot_pnl_cumulative : Option ℚ
  future_pnl_cumulative : Option ℚ
deriving DecidableEq

/-- A retained backtest row (after `dropna()`): every derived column is
an actual number. -/
structure BacktestRecord where
  date : ℕ
  spot_price : ℚ
  future_price : ℚ
  spot_price_change : ℚ
  future_price_change : ℚ
  spot_pnl : ℚ
  future_pnl : ℚ
  total_pnl : ℚ
  unhedged_pnl : ℚ
  total_pnl_cumulative : ℚ
  unhedged_pnl_cumulative : ℚ
  spot_pnl_cumulative : ℚ
  future_pnl_cumulative : ℚ
deriving DecidableEq

/-- Zip the input rows with the ten derived columns into raw frame
rows (a DataFrame is column-aligned by position). -/
def zipCols : List PricePoint → List (Option ℚ) → List (Option ℚ) →
    List (Option ℚ) → List (Option ℚ) → List (Option ℚ) → List (Option ℚ) →
    List (Option ℚ) → List (Option ℚ) → List (Option ℚ) → List (Option ℚ) →
    List RawRow
  | p :: ps, a :: as_, b :: bs, c :: cs, d :: ds, e :: es, f :: fs,
      g :: gs, h :: hs, i :: is_, j :: js =>
    ⟨p.date, p.spot_price, p.future_price, a, b, c, d, e, f, g, h, i, j⟩ ::
      zipCols ps as_ bs cs ds es fs gs hs is_ js
  | _, _, _, _, _, _, _, _, _, _, _ => []

/-- pandas `dropna()` on one raw row: keep it only when every cell is a
number. -/
def dropnaRow (r : RawRow) : Option BacktestRecord :=
  match r.spot_price_change, r.future_price_change, r.spot_pnl, r.future_pnl,
      r.total_pnl, r.unhedged_pnl, r.total_pnl_cumulative,
      r.unhedged_pnl_cumulative, r.spot_pnl_cumulative,
      r.future_pnl_cumulative with
  | some a, some b, some c, some d, some e, some f, some g, some h,
      some i, some j =>
    some ⟨r.date, r.spot_price, r.future_price, a, b, c, d, e, f, g, h, i, j⟩
  | _, _, _, _, _, _, _, _, _, _ => none

/-- The data-construction part of `BacktestEngine.run_backtest`
(`backtest_engine.py` lines 48-87): column-wise first differences,
direction-dependent P&L columns, `skipna` cumulative sums, then
`dropna()`. -/
def runData (aligned_data : List PricePoint) (hedge_ratio spot_quantity : ℚ)
    (hedge_direction : HedgeDirection) : List BacktestRecord :=
  let future_quantity := spot_quantity * hedge_ratio
  let spotChange := pdDiff (aligned_data.map (·.spot_price))
  let futureChange := pdDiff (aligned_data.map (·.future_price))
  let spot_pnl := match hedge_direction with
    | .short_hedge => spotChange.map (Option.map (fun v => spot_quantity * v))
    | .long_hedge => spotChange.map (Option.map (fun v => -spot_quantity * v))
  let future_pnl := match hedge_direction with
    | .short_hedge =>
      futureChange.map (Option.map (fun v => -future_quantity * v))
    | .long_hedge =>
      futureChange.map (Option.map (fun v => future_quantity * v))
  let total_pnl := List.zipWith optAdd spot_pnl future_pnl
  let unhedged_pnl := match hedge_direction with
    | .short_hedge => spotChange.map (Option.map (fun v => spot_quantity * v))
    | .long_hedge => spotChange.map (Option.map (fun v => -spot_quantity * v))
  let tc := cumsumSkipna 0 total_pnl
  let uc := cumsumSkipna 0 unhedged_pnl
  let sc := cumsumSkipna 0 spot_pnl
  let fc := cumsumSkipna 0 future_pnl
  (zipCols aligned_data spotChange futureChange spot_pnl future_pnl total_pnl
    unhedged_pnl tc uc sc fc).filterMap dropnaRow

/-- Sign coefficient of the spot leg (and of the unhedged P&L). -/
def spotCoef (dir : HedgeDirection) (spot_quantity : ℚ) : ℚ :=
  match dir with
  | .short_hedge => spot_quantity
  | .long_hedge => -spot_quantity

/-- Sign coefficient of the futures leg. -/
def futureCoef (dir : HedgeDirection) (future_quantity : ℚ) : ℚ :=
  match dir with
  | .short_hedge => -future_quantity
  | .long_hedge => future_quantity

/-- Direct recursive form of the retained backtest rows: walk the
aligned series pairing each day with its predecessor while carrying the
four running sums. Proved equal to `runData` below. -/
def cleanBuild (dir : HedgeDirection) (hedge_ratio spot_quantity : ℚ)
    (prev : PricePoint) (rest : List PricePoint)
    (accT accU accS accF : ℚ) : List BacktestRecord :=
  match rest with
  | [] => []
  | p :: rest' =>
    let ds := p.spot_price - prev.spot_price
    let df := p.future_price - prev.future_price
    let sp := spotCoef dir spot_quantity * ds
    let fp := futureCoef dir (spot_quantity * hedge_ratio) * df
    let tp := sp + fp
    let up := spotCoef dir spot_quantity * ds
    ⟨p.date, p.spot_price, p.future_price, ds, df, sp, fp, tp, up,
      accT + tp, accU + up, accS + sp, accF + fp⟩ ::
      cleanBuild dir hedge_ratio spot_quantity p rest'
        (accT + tp) (accU + up) (accS + sp) (accF + fp)

/-- Consecutive differences of a list relative to a starting value. -/
def diffsFrom (x : ℚ) : List ℚ → List ℚ
  | [] => []
  | y :: ys => (y - x) :: diffsFrom y ys

/-- Running sums of a list starting from an accumulator. -/
def scanFrom (a : ℚ) : List ℚ → List ℚ
  | [] => []
  | v :: vs => (a + v) :: scanFrom (a + v) vs

theorem zipWith_sub_some (x : ℚ) (xs : List ℚ) :
    List.zipWith (fun b a => some (b - a)) xs (x :: xs) =
      (diffsFrom x xs).map some := by
  induction xs generalizing x with
  | nil => rfl
  | cons y ys ih => simp [diffsFrom, ih y]

theorem pdDiff_cons (x : ℚ) (xs : List ℚ) :
    pdDiff (x :: xs) = none :: (diffsFrom x xs).map some := by
  simp [pdDiff, zipWith_sub_some]

theorem map_optMap_someList (f : ℚ → ℚ) (l : List ℚ) :
    (l.map some).map (Option.map f) = (l.map f).map some := by
  induction l with
  | nil => rfl
  | cons v vs ih => simp [ih]

theorem zipWith_optAdd_someList (l₁ l₂ : List ℚ) :
    List.zipWith optAdd (l₁.map some) (l₂.map some) =
      (List.zipWith (· + ·) l₁ l₂).map some := by
  induction l₁ generalizing l₂ with
  | nil => rfl
  | cons v vs ih => cases l₂ with
    | nil => rfl
    | cons w ws => simp [optAdd, ih]

theorem cumsumSkipna_someList (a : ℚ) (l : List ℚ) :
    cumsumSkipna a (l.map some) = (scanFrom a l).map some := by
  induction l generalizing a with
  | nil => rfl
  | cons v vs ih => simp [cumsumSkipna, scanFrom, ih]

theorem filterMap_zipCols_clean (dir : HedgeDirection) (h q : ℚ)
    (ps : List PricePoint) (prev : PricePoint) (aT aU aS aF : ℚ) :
    (zipCols ps
      ((diffsFrom prev.spot_price (ps.map PricePoint.spot_price)).map some)
      ((diffsFrom prev.future_price (ps.map PricePoint.future_price)).map some)
      (((diffsFrom prev.spot_price (ps.map PricePoint.spot_price)).map
        (fun v => spotCoef dir q * v)).map some)
      (((diffsFrom prev.future_price (ps.map PricePoint.future_price)).map
        (fun v => futureCoef dir (q * h) * v)).map some)
      ((List.zipWith (· + ·)
        ((diffsFrom prev.spot_price (ps.map PricePoint.spot_price)).map
          (fun v => spotCoef dir q * v))
        ((diffsFrom prev.future_price (ps.map PricePoint.future_price)).map
          (fun v => futureCoef dir (q * h) * v))).map some)
      (((diffsFrom prev.spot_price (ps.map PricePoint.spot_price)).map
        (fun v => spotCoef dir q * v)).map some)
      ((scanFrom aT (List.zipWith (· + ·)
        ((diffsFrom prev.spot_price (ps.map PricePoint.spot_price)).map
          (fun v => spotCoef dir q * v))
        ((diffsFrom prev.future_price (ps.map PricePoint.future_price)).map
          (fun v => futureCoef dir (q * h) * v)))).map some)
      ((scanFrom aU ((diffsFrom prev.spot_price
        (ps.map PricePoint.spot_price)).map
          (fun v => spotCoef dir q * v))).map some)
      ((scanFrom aS ((diffsFrom prev.spot_price
        (ps.map PricePoint.spot_price)).map
          (fun v => spotCoef dir q * v))).map some)
      ((scanFrom aF ((diffsFrom prev.future_price
        (ps.map PricePoint.future_price)).map
          (fun v => futureCoef dir (q * h) * v))).map some)).filterMap
        dropnaRow =
      cleanBuild dir h q prev ps aT aU aS aF := by
  induction ps generalizing prev aT aU aS aF with
  | nil => rfl
  | cons p ps' ih =>
    simp only [List.map_cons, diffsFrom, scanFrom, List.zipWith_cons_cons,
      zipCols, List.filterMap_cons, dropnaRow, cleanBuild]
    exact congrArg _ (ih p _ _ _ _)

theorem runData_cons (p : PricePoint) (ps : List PricePoint)
    (h q : ℚ) (dir : HedgeDirection) :
    runData (p :: ps) h q dir = cleanBuild dir h q p ps 0 0 0 0 := by
  cases dir with
  | short_hedge =>
    simp only [runData, List.map_cons, pdDiff_cons, List.map_map,
      Option.map_none, Option.map_some]
    simp only [show ∀ f : ℚ → ℚ, (Option.map f ∘ some) = some ∘ f from
      fun f => rfl]
    simp only [← List.map_map]
    simp only [zipCols, List.filterMap_cons, dropnaRow]
    simp only [zipWith_optAdd_someList, cumsumSkipna_someList]
    simpa only [spotCoef, futureCoef] using
      filterMap_zipCols_clean .short_hedge h q ps p 0 0 0 0
  | long_hedge =>
    simp only [runData, List.map_cons, pdDiff_cons, List.map_map,
      Option.map_none, Option.map_some]
    simp only [show ∀ f : ℚ → ℚ, (Option.map f ∘ some) = some ∘ f from
      fun f => rfl]
    simp only [← List.map_map]
    simp only [zipCols, List.filterMap_cons, dropnaRow]
    simp only [zipWith_optAdd_someList, cumsumSkipna_someList]
    simpa only [spotCoef, futureCoef] using
      filterMap_zipCols_clean .long_hedge h q ps p 0 0 0 0

/-- pandas `Series.mean()`: NaN on an empty series. -/
def pdMean (xs : List ℚ) : Option ℚ :=
  if xs.isEmpty then none else some (xs.sum / (xs.length : ℚ))

/-- pandas `Series.var()` / the square of `Series.std()` (sample
statistics, `ddof=1`): NaN when fewer than two values.  The code stores
`std = sqrt` of this, which is irrational in general; all the guards in
the source compare `std` with `0`, and `std > 0 ↔ var > 0` as well as
`std = 0 ↔ var = 0`, so the model keeps the variance. -/
def sampleVar (xs : List ℚ) : Option ℚ :=
  if xs.length < 2 then none
  else
    let m := xs.sum / (xs.length : ℚ)
    some ((xs.map (fun x => (x - m) ^ 2)).sum / ((xs.length : ℚ) - 1))

/-- pandas `Series.min()`: NaN on an empty series. -/
def pdMin : List ℚ → Option ℚ
  | [] => none
  | x :: xs => some (xs.foldl min x)

/-- pandas `Series.max()`: NaN on an empty series. -/
def pdMax : List ℚ → Option ℚ
  | [] => none
  | x :: xs => some (xs.foldl max x)

/-- Running maxima of a list continuing from a current maximum. -/
def expandingMaxFrom (cur : ℚ) : List ℚ → List ℚ
  | [] => []
  | x :: xs => max cur x :: expandingMaxFrom (max cur x) xs

/-- pandas `series.expanding().max()`. -/
def expandingMax : List ℚ → List ℚ
  | [] => []
  | x :: xs => x :: expandingMaxFrom x xs

/-- `_calculate_max_drawdown`: minimum of (cumulative − running peak);
NaN on an empty series. -/
def maxDrawdown (xs : List ℚ) : Option ℚ :=
  pdMin (List.zipWith (· - ·) xs (expandingMax xs))

/-- Insert a value into a sorted list (ascending). -/
def insertSorted (x : ℚ) : List ℚ → List ℚ
  | [] => [x]
  | y :: ys => if x ≤ y then x :: y :: ys else y :: insertSorted x ys

/-- Sort a list of rationals ascending (for the percentile). -/
def sortQ : List ℚ → List ℚ
  | [] => []
  | x :: xs => insertSorted x (sortQ xs)

/-- Value of `np.percentile(xs, p)` on a non-empty list: numpy's
default linear-interpolation percentile. -/
def percentileLinear (xs : List ℚ) (p : ℚ) : ℚ :=
  let s := sortQ xs
  let hIdx : ℚ := p / 100 * ((s.length : ℚ) - 1)
  let i : ℕ := Int.toNat ⌊hIdx⌋
  let frac : ℚ := hIdx - (⌊hIdx⌋ : ℚ)
  let lo := s.getD i 0
  let hi := s.getD (i + 1) lo
  lo + frac * (hi - lo)

/-- `np.percentile`: raises `IndexError` on an empty array (numpy:
"cannot do a non-empty take from an empty axes"). -/
def npPercentile (xs : List ℚ) (p : ℚ) : Except String ℚ :=
  if xs.isEmpty then
    .error "IndexError: cannot do a non-empty take from an empty axes"
  else .ok (percentileLinear xs p)

/-- `data['date'].min().strftime(...)`: on an empty frame the min is
`NaT` and `strftime` raises `ValueError`. -/
def dateMinE : List ℕ → Except String ℕ
  | [] => .error "ValueError: NaTType does not support strftime"
  | d :: rest => .ok (rest.foldl min d)

/-- `data['date'].max().strftime(...)`, same failure mode as the min. -/
def dateMaxE : List ℕ → Except String ℕ
  | [] => .error "ValueError: NaTType does not support strftime"
  | d :: rest => .ok (rest.foldl max d)

/-- Value of a Sharpe-style field.  The source computes
`mean / std` when `std > 0` and the number `0` otherwise; in the
positive branch the value involves the irrational `sqrt` of the sample
variance, so the model keeps that branch symbolically as
`meanOverStd mean variance`. -/
inductive PyRatio where
  | zero
  | meanOverStd (mean variance : ℚ)
deriving DecidableEq, Inhabited

/-- The `if volatility > 0 then mean / volatility else 0` computation
from `_calculate_performance_metrics`.  The guard `std > 0` is
equivalent to `var > 0`, and a NaN volatility (fewer than two rows)
compares false against `0` in Python, selecting the `0` branch. -/
def sharpeOf (mean : Option ℚ) (variance : Option ℚ) : PyRatio :=
  match variance with
  | some v => if 0 < v then .meanOverStd (mean.getD 0) v else .zero
  | none => .zero

/-- Subtraction on NaN-able cells. -/
def optSub : Option ℚ → Option ℚ → Option ℚ
  | some a, some b => some (a - b)
  | _, _ => none

/-- Division on NaN-able cells; numpy turns division by zero into
NaN/inf (with a warning, never an exception), modelled as `none`. -/
def optDiv : Option ℚ → Option ℚ → Option ℚ
  | some a, some b => if b = 0 then none else some (a / b)
  | _, _ => none

/-- The metrics dictionary produced by
`BacktestEngine._calculate_performance_metrics`.  Fields whose source
value is a square root of a sample variance are represented by that
variance (`hedged_variance`, `unhedged_variance` are the squares of the
source's `hedged_volatility`, `unhedged_volatility`), and
`volatility_reduction_rate` (a ratio of two such square roots) is not
modelled.  `Option ℚ` fields are NaN-able in the source. -/
structure PerformanceMetrics where
  total_days : ℕ
  total_hedged_pnl : ℚ
  total_unhedged_pnl : ℚ
  total_spot_pnl : ℚ
  total_future_pnl : ℚ
  avg_daily_hedged_pnl : Option ℚ
  avg_daily_unhedged_pnl : Option ℚ
  profitable_days_hedged : ℕ
  profitable_days_unhedged : ℕ
  profitable_days_ratio_hedged : Option ℚ
  profitable_days_ratio_unhedged : Option ℚ
  hedged_variance : Option ℚ
  unhedged_variance : Option ℚ
  max_drawdown_hedged : Option ℚ
  max_drawdown_unhedged : Option ℚ
  sharpe_ratio_hedged : PyRatio
  sharpe_ratio_unhedged : PyRatio
  variance_reduction_rate : Option ℚ
  hedging_effectiveness : Option ℚ
  estimated_hedge_cost : Option ℚ
  max_daily_gain_hedged : Option ℚ
  max_daily_loss_hedged : Option ℚ
  max_daily_gain_unhedged : Option ℚ
  max_daily_loss_unhedged : Option ℚ
  var_95_hedged : ℚ
  var_95_unhedged : ℚ
  start_date : ℕ
  end_date : ℕ
deriving DecidableEq, Inhabited

/-- The pure part of `_calculate_performance_metrics`: every field that
cannot raise.  In the source these are computed before the two
`np.percentile` calls and the date formatting; since none of them can
raise, hoisting the four fallible values as parameters preserves the
semantics. -/
def mkMetrics (records : List BacktestRecord) ( _dir : HedgeDirection)
    (_spot_quantity future_quantity : ℚ) (v95h v95u : ℚ)
    (sd ed : ℕ) : PerformanceMetrics :=
  let totalPnl := records.map (·.total_pnl)
  let unhedgedPnl := records.map (·.unhedged_pnl)
  let n := records.length
  let hv := sampleVar totalPnl
  let uv := sampleVar unhedgedPnl
  { total_days := n
    total_hedged_pnl := totalPnl.sum
    total_unhedged_pnl := unhedgedPnl.sum
    total_spot_pnl := (records.map (·.spot_pnl)).sum
    total_future_pnl := (records.map (·.future_pnl)).sum
    avg_daily_hedged_pnl := pdMean totalPnl
    avg_daily_unhedged_pnl := pdMean unhedgedPnl
    profitable_days_hedged := (totalPnl.filter (fun x => 0 < x)).length
    profitable_days_unhedged := (unhedgedPnl.filter (fun x => 0 < x)).length
    profitable_days_ratio_hedged :=
      if n = 0 then none
      else some (((totalPnl.filter (fun x => 0 < x)).length : ℚ) / (n : ℚ))
    profitable_days_ratio_unhedged :=
      if n = 0 then none
      else some (((unhedgedPnl.filter (fun x => 0 < x)).length : ℚ) / (n : ℚ))
    hedged_variance := hv
    unhedged_variance := uv
    max_drawdown_hedged := maxDrawdown (records.map (·.total_pnl_cumulative))
    max_drawdown_unhedged :=
      maxDrawdown (records.map (·.unhedged_pnl_cumulative))
    sharpe_ratio_hedged := sharpeOf (pdMean totalPnl) hv
    sharpe_ratio_unhedged := sharpeOf (pdMean unhedgedPnl) uv
    variance_reduction_rate := optDiv (optSub uv hv) uv
    hedging_effectiveness := optDiv (optSub uv hv) uv
    estimated_hedge_cost :=
      (pdMean (records.map (·.future_price))).map
        (fun m => |future_quantity| * m * (1 / 1000))
    max_daily_gain_hedged := pdMax totalPnl
    max_daily_loss_hedged := pdMin totalPnl
    max_daily_gain_unhedged := pdMax unhedgedPnl
    max_daily_loss_unhedged := pdMin unhedgedPnl
    var_95_hedged := v95h
    var_95_unhedged := v95u
    start_date := sd
    end_date := ed }

/-- `BacktestEngine._calculate_performance_metrics`: the fallible parts
are the two `np.percentile` calls (which raise `IndexError` on an
empty record set) and the `strftime` of the min/max date (which raises
on `NaT`); the percentiles come first in the source. -/
def calcPerformanceMetrics (records : List BacktestRecord)
    (dir : HedgeDirection) (spot_quantity future_quantity : ℚ) :
    Except String PerformanceMetrics := do
  let v95h ← npPercentile (records.map (·.total_pnl)) 5
  let v95u ← npPercentile (records.map (·.unhedged_pnl)) 5
  let sd ← dateMinE (records.map (·.date))
  let ed ← dateMaxE (records.map (·.date))
  pure (mkMetrics records dir spot_quantity future_quantity v95h v95u sd ed)

/-- The `hedge_parameters` dictionary of the backtest result. -/
structure HedgeParams where
  hedge_ratio : ℚ
  spot_quantity : ℚ
  future_quantity : ℚ
  hedge_direction : String
  future_contract_size : ℚ
deriving DecidableEq, Inhabited

/-- The dictionary returned by `run_backtest`. -/
structure BacktestResult where
  data : List BacktestRecord
  performance_metrics : PerformanceMetrics
  hedge_parameters : HedgeParams
deriving DecidableEq, Inhabited

/-- `BacktestEngine.run_backtest` (`backtest_engine.py` lines 25-108):
empty-input check, P&L table construction (`runData`), performance
metrics, result assembly. -/
def run_backtest (aligned_data : List PricePoint)
    (hedge_ratio spot_quantity : ℚ) (hedge_direction : HedgeDirection)
    (future_contract_size : ℚ) : Except String BacktestResult :=
  if aligned_data.isEmpty then .error "数据为空，无法进行回测"
  else
    let future_quantity := spot_quantity * hedge_ratio
    let data := runData aligned_data hedge_ratio spot_quantity hedge_direction
    (calcPerformanceMetrics data hedge_direction spot_quantity
        future_quantity).map
      (fun pm =>
        { data := data
          performance_metrics := pm
          hedge_parameters :=
            ⟨hedge_ratio, spot_quantity, future_quantity,
              hedge_direction.value, future_contract_size⟩ })

theorem exceptMap_ok {α β : Type} {x : Except String α} {f : α → β}
    {b : β} (hx : Except.map f x = .ok b) : ∃ a, x = .ok a ∧ f a = b := by
  cases x with
  | error e => simp [Except.map] at hx
  | ok a =>
    refine ⟨a, rfl, ?_⟩
    simpa [Except.map] using hx

theorem run_backtest_ok_data {S : List PricePoint} {h q cs : ℚ}
    {dir : HedgeDirection} {res : BacktestResult}
    (hres : run_backtest S h q dir cs = .ok res) :
    res.data = runData S h q dir := by
  unfold run_backtest at hres
  by_cases hS : S.isEmpty
  · simp [hS] at hres
  · simp only [hS, if_false] at hres
    obtain ⟨pm, _, hpm⟩ := exceptMap_ok hres
    simp [← hpm]

theorem calcPerformanceMetrics_cons (r : BacktestRecord)
    (rs : List BacktestRecord) (dir : HedgeDirection) (q fq : ℚ) :
    calcPerformanceMetrics (r :: rs) dir q fq =
      .ok (mkMetrics (r :: rs) dir q fq
        (percentileLinear ((r :: rs).map (·.total_pnl)) 5)
        (percentileLinear ((r :: rs).map (·.unhedged_pnl)) 5)
        ((rs.map (·.date)).foldl min r.date)
        ((rs.map (·.date)).foldl max r.date)) := by
  simp [calcPerformanceMetrics, npPercentile, dateMinE, dateMaxE,
    Bind.bind, Except.bind, Pure.pure, Except.pure]

theorem run_backtest_cons_ok (p0 p1 : PricePoint) (rest : List PricePoint)
    (h q cs : ℚ) (dir : HedgeDirection) :
    ∃ res, run_backtest (p0 :: p1 :: rest) h q dir cs = .ok res ∧
      res.data = runData (p0 :: p1 :: rest) h q dir := by
  rcases hD : runData (p0 :: p1 :: rest) h q dir with _ | ⟨r, rs⟩
  · rw [runData_cons] at hD
    simp [cleanBuild] at hD
  · simp only [run_backtest, List.isEmpty_cons, if_false, Bool.false_eq_true]
    rw [hD, calcPerformanceMetrics_cons]
    exact ⟨_, rfl, rfl⟩

/-- The four P&L cells of a retained row. -/
def pnlQuad (r : BacktestRecord) : ℚ × ℚ × ℚ × ℚ :=
  (r.spot_pnl, r.future_pnl, r.total_pnl, r.unhedged_pnl)

/-- The spec's P&L formulas for `ShortHedge` on a (previous day,
current day) pair: `spot_pnl = q·Δspot`, `future_pnl = −(q·h)·Δfuture`,
`total_pnl` their sum, `unhedged_pnl = q·Δspot`. -/
def shortLegs (h q : ℚ) (pc : PricePoint × PricePoint) : ℚ × ℚ × ℚ × ℚ :=
  (q * (pc.2.spot_price - pc.1.spot_price),
   -(q * h) * (pc.2.future_price - pc.1.future_price),
   q * (pc.2.spot_price - pc.1.spot_price) +
     -(q * h) * (pc.2.future_price - pc.1.future_price),
   q * (pc.2.spot_price - pc.1.spot_price))

/-- The spec's P&L formulas for `LongHedge`: `spot_pnl = −q·Δspot`,
`future_pnl = +(q·h)·Δfuture`, `total_pnl` their sum,
`unhedged_pnl = −q·Δspot`. -/
def longLegs (h q : ℚ) (pc : PricePoint × PricePoint) : ℚ × ℚ × ℚ × ℚ :=
  (-q * (pc.2.spot_price - pc.1.spot_price),
   q * h * (pc.2.future_price - pc.1.future_price),
   -q * (pc.2.spot_price - pc.1.spot_price) +
     q * h * (pc.2.future_price - pc.1.future_price),
   -q * (pc.2.spot_price - pc.1.spot_price))

theorem cleanBuild_map_pnl (dir : HedgeDirection) (h q : ℚ)
    (ps : List PricePoint) (prev : PricePoint) (aT aU aS aF : ℚ) :
    (cleanBuild dir h q prev ps aT aU aS aF).map pnlQuad =
      ((prev :: ps).zip ps).map (fun pc =>
        (spotCoef dir q * (pc.2.spot_price - pc.1.spot_price),
         futureCoef dir (q * h) * (pc.2.future_price - pc.1.future_price),
         spotCoef dir q * (pc.2.spot_price - pc.1.spot_price) +
           futureCoef dir (q * h) *
             (pc.2.future_price - pc.1.future_price),
         spotCoef dir q * (pc.2.spot_price - pc.1.spot_price))) := by
  induction ps generalizing prev aT aU aS aF with
  | nil => rfl
  | cons p ps' ih =>
    simp only [cleanBuild, List.map_cons, List.zip_cons_cons, pnlQuad]
    exact congrArg _ (ih p _ _ _ _)

/-- C1: for every aligned series with at least two rows and all
parameters, `run_backtest` succeeds and produces, on each retained day,
exactly the direction-dependent P&L values of the spec: for `ShortHedge`
`spot_pnl = q·Δspot`, `future_pnl = −(q·h)·Δfuture`,
`unhedged_pnl = q·Δspot`, and for `LongHedge` the negated spot leg with
`future_pnl = +(q·h)·Δfuture`; `total_pnl` is the sum of the two legs
(the concrete scenario q = 10, h = 0.5, Δspot = +5, Δfuture = +4 giving
(50, −20, 30, 50) is the witness). -/
theorem backtest_pnl_sign_conventions (S : List PricePoint) (h q cs : ℚ)
    (h2 : 2 ≤ S.length) :
    (∃ res, run_backtest S h q .short_hedge cs = .ok res ∧
      res.data.map pnlQuad = (S.zip S.tail).map (shortLegs h q)) ∧
    (∃ res, run_backtest S h q .long_hedge cs = .ok res ∧
      res.data.map pnlQuad = (S.zip S.tail).map (longLegs h q)) := by
  rcases S with _ | ⟨p0, ps⟩
  · simp at h2
  rcases ps with _ | ⟨p1, rest⟩
  · simp at h2
  constructor
  · obtain ⟨res, hok, hdata⟩ :=
      run_backtest_cons_ok p0 p1 rest h q cs .short_hedge
    refine ⟨res, hok, ?_⟩
    rw [hdata, runData_cons, cleanBuild_map_pnl]
    simp only [List.tail_cons]
    apply List.map_congr_left
    intro pc _
    simp [shortLegs, spotCoef, futureCoef]
  · obtain ⟨res, hok, hdata⟩ :=
      run_backtest_cons_ok p0 p1 rest h q cs .long_hedge
    refine ⟨res, hok, ?_⟩
    rw [hdata, runData_cons, cleanBuild_map_pnl]
    simp only [List.tail_cons]
    apply List.map_congr_left
    intro pc _
    simp [longLegs, spotCoef, futureCoef]

/-- Witness for C1: the spec's concrete scenario. Two aligned days with
Δspot = +5 and Δfuture = +4, spot_quantity 10, hedge_ratio 0.5: the
retained day's row is (50, −20, 30, 50) under `ShortHedge` and
(−50, 20, −30, −50) under `LongHedge`. -/
theorem backtest_pnl_sign_conventions_witness :
    (∃ res, run_backtest
        [⟨0, 100, 50⟩, ⟨1, 105, 54⟩] (1/2) 10 .short_hedge 1 = .ok res ∧
      res.data.map pnlQuad = [(50, -20, 30, 50)]) ∧
    (∃ res, run_backtest
        [⟨0, 100, 50⟩, ⟨1, 105, 54⟩] (1/2) 10 .long_hedge 1 = .ok res ∧
      res.data.map pnlQuad = [(-50, 20, -30, -50)]) := by
  obtain ⟨⟨r1, hok1, he1⟩, ⟨r2, hok2, he2⟩⟩ :=
    backtest_pnl_sign_conventions [⟨0, 100, 50⟩, ⟨1, 105, 54⟩] (1/2) 10 1
      (by decide)
  constructor
  · refine ⟨r1, hok1, ?_⟩
    rw [he1]
    norm_num [shortLegs]
  · refine ⟨r2, hok2, ?_⟩
    rw [he2]
    norm_num [longLegs]

theorem cleanBuild_invariants (dir : HedgeDirection) (h q : ℚ)
    (ps : List PricePoint) (prev : PricePoint) (aT aU aS aF : ℚ) (i : ℕ)
    (hi : i < (cleanBuild dir h q prev ps aT aU aS aF).length) :
    ((cleanBuild dir h q prev ps aT aU aS aF).get ⟨i, hi⟩).total_pnl =
      ((cleanBuild dir h q prev ps aT aU aS aF).get ⟨i, hi⟩).spot_pnl +
        ((cleanBuild dir h q prev ps aT aU aS aF).get ⟨i, hi⟩).future_pnl ∧
    ((cleanBuild dir h q prev ps aT aU aS aF).get
        ⟨i, hi⟩).total_pnl_cumulative =
      aT + (((cleanBuild dir h q prev ps aT aU aS aF).take (i + 1)).map
        (·.total_pnl)).sum ∧
    ((cleanBuild dir h q prev ps aT aU aS aF).get
        ⟨i, hi⟩).unhedged_pnl_cumulative =
      aU + (((cleanBuild dir h q prev ps aT aU aS aF).take (i + 1)).map
        (·.unhedged_pnl)).sum ∧
    ((cleanBuild dir h q prev ps aT aU aS aF).get
        ⟨i, hi⟩).spot_pnl_cumulative =
      aS + (((cleanBuild dir h q prev ps aT aU aS aF).take (i + 1)).map
        (·.spot_pnl)).sum ∧
    ((cleanBuild dir h q prev ps aT aU aS aF).get
        ⟨i, hi⟩).future_pnl_cumulative =
      aF + (((cleanBuild dir h q prev ps aT aU aS aF).take (i + 1)).map
        (·.future_pnl)).sum := by
  induction ps generalizing prev aT aU aS aF i with
  | nil => simp [cleanBuild] at hi
  | cons p ps' ih =>
    cases i with
    | zero =>
      simp [cleanBuild, List.take_succ_cons]
    | succ i' =>
      have hi' : i' < (cleanBuild dir h q p ps'
          (aT + (spotCoef dir q * (p.spot_price - prev.spot_price) +
            futureCoef dir (q * h) * (p.future_price - prev.future_price)))
          (aU + spotCoef dir q * (p.spot_price - prev.spot_price))
          (aS + spotCoef dir q * (p.spot_price - prev.spot_price))
          (aF + futureCoef dir (q * h) *
            (p.future_price - prev.future_price))).length := by
        simpa [cleanBuild] using hi
      obtain ⟨e1, e2, e3, e4, e5⟩ := ih p _ _ _ _ i' hi'
      refine ⟨?_, ?_, ?_, ?_, ?_⟩ <;>
        simp only [cleanBuild, List.get_cons_succ, List.take_succ_cons,
          List.map_cons, List.sum_cons] <;>
        first
          | exact e1
          | (rw [e2]; ring)
          | (rw [e3]; ring)
          | (rw [e4]; ring)
          | (rw [e5]; ring)

/-- C2: on every successful backtest, every retained row satisfies
`total_pnl = spot_pnl + future_pnl`, and each cumulative column equals
the running (date-order) sum of its per-day column over the retained
rows — the dropped first row contributes nothing because `cumsum`
skips its NaN entries. -/
theorem backtest_cumulative_invariants (S : List PricePoint)
    (h q cs : ℚ) (dir : HedgeDirection) (res : BacktestResult)
    (hres : run_backtest S h q dir cs = .ok res) (i : ℕ)
    (hi : i < res.data.length) :
    (res.data.get ⟨i, hi⟩).total_pnl =
      (res.data.get ⟨i, hi⟩).spot_pnl + (res.data.get ⟨i, hi⟩).future_pnl ∧
    (res.data.get ⟨i, hi⟩).total_pnl_cumulative =
      ((res.data.take (i + 1)).map (·.total_pnl)).sum ∧
    (res.data.get ⟨i, hi⟩).unhedged_pnl_cumulative =
      ((res.data.take (i + 1)).map (·.unhedged_pnl)).sum ∧
    (res.data.get ⟨i, hi⟩).spot_pnl_cumulative =
      ((res.data.take (i + 1)).map (·.spot_pnl)).sum ∧
    (res.data.get ⟨i, hi⟩).future_pnl_cumulative =
      ((res.data.take (i + 1)).map (·.future_pnl)).sum := by
  have hdata : res.data = runData S h q dir := run_backtest_ok_data hres
  rcases S with _ | ⟨p0, ps⟩
  · simp [run_backtest] at hres
  · have hclean : res.data = cleanBuild dir h q p0 ps 0 0 0 0 := by
      rw [hdata, runData_cons]
    revert hi
    rw [hclean]
    intro hi
    simpa using cleanBuild_invariants dir h q ps p0 0 0 0 0 i hi

/-- Concrete successful backtest used by the C2 witness. -/
def c2WitnessRes : BacktestResult :=
  (run_backtest [⟨0, 100, 50⟩, ⟨1, 103, 52⟩, ⟨2, 101, 53⟩]
    1 1 .short_hedge 1).toOption.getD default

/-- Witness for C2: a three-day series, checked at the second retained
row. -/
theorem backtest_cumulative_invariants_witness :
    run_backtest [⟨0, 100, 50⟩, ⟨1, 103, 52⟩, ⟨2, 101, 53⟩]
        1 1 .short_hedge 1 = .ok c2WitnessRes ∧
    ((c2WitnessRes.data.get ⟨1, by decide⟩).total_pnl =
      (c2WitnessRes.data.get ⟨1, by decide⟩).spot_pnl +
        (c2WitnessRes.data.get ⟨1, by decide⟩).future_pnl ∧
    (c2WitnessRes.data.get ⟨1, by decide⟩).total_pnl_cumulative =
      ((c2WitnessRes.data.take 2).map (·.total_pnl)).sum ∧
    (c2WitnessRes.data.get ⟨1, by decide⟩).unhedged_pnl_cumulative =
      ((c2WitnessRes.data.take 2).map (·.unhedged_pnl)).sum ∧
    (c2WitnessRes.data.get ⟨1, by decide⟩).spot_pnl_cumulative =
      ((c2WitnessRes.data.take 2).map (·.spot_pnl)).sum ∧
    (c2WitnessRes.data.get ⟨1, by decide⟩).future_pnl_cumulative =
      ((c2WitnessRes.data.take 2).map (·.future_pnl)).sum) := by
  have hok : run_backtest [⟨0, 100, 50⟩, ⟨1, 103, 52⟩, ⟨2, 101, 53⟩]
      1 1 .short_hedge 1 = .ok c2WitnessRes := by
    rfl
  exact ⟨hok, backtest_cumulative_invariants
    [⟨0, 100, 50⟩, ⟨1, 103, 52⟩, ⟨2, 101, 53⟩] 1 1 1 .short_hedge
    c2WitnessRes hok 1 (by decide)⟩

/-- C8: a one-row aligned series passes the non-emptiness check of
`run_backtest`, but differencing leaves zero retained rows and the
metrics computation then raises an unhandled `IndexError` from
`np.percentile` on the empty P&L column — neither the documented
empty-input error nor the insufficient-data error. -/
theorem one_row_backtest_unhandled_error (p : PricePoint) (h q cs : ℚ)
    (dir : HedgeDirection) :
    run_backtest [p] h q dir cs =
      .error "IndexError: cannot do a non-empty take from an empty axes" ∧
    "IndexError: cannot do a non-empty take from an empty axes" ≠
      "数据为空，无法进行回测" ∧
    "IndexError: cannot do a non-empty take from an empty axes" ≠
      "数据量不足，无法计算套保比例" := by
  refine ⟨?_, by decide, by decide⟩
  have hD : runData [p] h q dir = [] := by cases dir <;> rfl
  simp [run_backtest, hD, calcPerformanceMetrics, npPercentile,
    Bind.bind, Except.bind, Except.map]

/-- C6: whenever the sample variance (the square of the sample standard
deviation) of the hedged — respectively unhedged — daily P&L series is
zero, the reported Sharpe-style ratio is the literal `0` branch of the
source's guard: no division is performed. -/
theorem sharpe_zero_when_volatility_zero (records : List BacktestRecord)
    (dir : HedgeDirection) (q fq : ℚ) (m : PerformanceMetrics)
    (hm : calcPerformanceMetrics records dir q fq = .ok m) :
    (sampleVar (records.map (·.total_pnl)) = some 0 →
      m.sharpe_ratio_hedged = PyRatio.zero) ∧
    (sampleVar (records.map (·.unhedged_pnl)) = some 0 →
      m.sharpe_ratio_unhedged = PyRatio.zero) := by
  rcases records with _ | ⟨r, rs⟩
  · simp [calcPerformanceMetrics, npPercentile, Bind.bind, Except.bind]
      at hm
  · rw [calcPerformanceMetrics_cons] at hm
    have hmk := (Except.ok.injEq _ _).mp hm
    constructor
    · intro hvar
      rw [← hmk]
      simp only [List.map_cons] at hvar
      simp [mkMetrics, sharpeOf, hvar]
    · intro hvar
      rw [← hmk]
      simp only [List.map_cons] at hvar
      simp [mkMetrics, sharpeOf, hvar]

/-- Records of a backtest whose daily P&L is constant (used by the C6
witness): the retained rows of a short-hedge backtest with q = h = 1 on
spots 100, 105, 110 and futures 50, 54, 58. -/
def c6WitnessRecords : List BacktestRecord :=
  [⟨1, 105, 54, 5, 4, 5, -4, 1, 5, 1, 5, 5, -4⟩,
   ⟨2, 110, 58, 5, 4, 5, -4, 1, 5, 2, 10, 10, -8⟩]

/-- Metrics computed on those records (used by the C6 witness). -/
def c6WitnessMetrics : PerformanceMetrics :=
  (calcPerformanceMetrics c6WitnessRecords .short_hedge 1 1).toOption.getD
    default

/-- Witness for C6: two retained days with constant P&L, hence zero
sample variance, hence Sharpe ratios exactly 0. -/
theorem sharpe_zero_when_volatility_zero_witness :
    calcPerformanceMetrics c6WitnessRecords .short_hedge 1 1 =
      .ok c6WitnessMetrics ∧
    sampleVar (c6WitnessRecords.map (·.total_pnl)) = some 0 ∧
    sampleVar (c6WitnessRecords.map (·.unhedged_pnl)) = some 0 ∧
    c6WitnessMetrics.sharpe_ratio_hedged = PyRatio.zero ∧
    c6WitnessMetrics.sharpe_ratio_unhedged = PyRatio.zero := by
  have hok : calcPerformanceMetrics c6WitnessRecords .short_hedge 1 1 =
      .ok c6WitnessMetrics := by rfl
  have hv1 : sampleVar (c6WitnessRecords.map (·.total_pnl)) = some 0 := by
    norm_num [c6WitnessRecords, sampleVar]
  have hv2 : sampleVar (c6WitnessRecords.map (·.unhedged_pnl)) = some 0 := by
    norm_num [c6WitnessRecords, sampleVar]
  obtain ⟨f1, f2⟩ := sharpe_zero_when_volatility_zero c6WitnessRecords
    .short_hedge 1 1 c6WitnessMetrics hok
  exact ⟨hok, hv1, hv2, f1 hv1, f2 hv2⟩

/-- Python float division: raises `ZeroDivisionError` on a zero
divisor (Python raises even for float operands, unlike numpy). -/
def pyDiv (a b : ℚ) : Except String ℚ :=
  if b = 0 then .error "ZeroDivisionError: float division by zero"
  else .ok (a / b)

/-- Python built-in `round`: banker's rounding (half to even). -/
def pyRound (q : ℚ) : ℤ :=
  let f := ⌊q⌋
  let frac := q - f
  if frac < 1/2 then f
  else if 1/2 < frac then f + 1
  else if f % 2 = 0 then f else f + 1

/-- Result dictionary of `calculate_hedge_quantity`. -/
structure HedgeQuantityResult where
  spot_quantity : ℚ
  optimal_hedge_ratio : ℚ
  future_quantity_needed : ℚ
  future_contract_size : ℚ
  contract_count : ℚ
  rounded_contract_count : ℤ
  actual_hedge_ratio : ℚ
deriving DecidableEq

/-- `HedgeRatioCalculator.calculate_hedge_quantity`
(`hedge_ratio_calculator.py` lines 155-186): futures notional, contract
count, rounded count, and the actual ratio implied by rounding. -/
def calculate_hedge_quantity (spot_quantity hedge_ratio
    future_contract_size : ℚ) : Except String HedgeQuantityResult := do
  let future_quantity := spot_quantity * hedge_ratio
  let contract_count ← pyDiv future_quantity future_contract_size
  let actual ← pyDiv ((pyRound contract_count : ℚ) * future_contract_size)
    spot_quantity
  .ok { spot_quantity := spot_quantity
        optimal_hedge_ratio := hedge_ratio
        future_quantity_needed := future_quantity
        future_contract_size := future_contract_size
        contract_count := contract_count
        rounded_contract_count := pyRound contract_count
        actual_hedge_ratio := actual }

/-- C10: with `spot_quantity = 0`, `calculate_hedge_quantity` always
raises `ZeroDivisionError` instead of returning: for a non-zero
contract size the division defining `actual_hedge_ratio` divides by the
zero spot quantity, and for a zero contract size the earlier
contract-count division already divides by zero. -/
theorem hedge_quantity_zero_spot_raises (hedge_ratio
    future_contract_size : ℚ) :
    calculate_hedge_quantity 0 hedge_ratio future_contract_size =
      .error "ZeroDivisionError: float division by zero" := by
  by_cases hc : future_contract_size = 0
  · simp [calculate_hedge_quantity, pyDiv, hc, Bind.bind, Except.bind]
  · simp [calculate_hedge_quantity, pyDiv, hc, Bind.bind, Except.bind]

/-- Day-over-day spot price differences of an aligned series (the
`spot_change` column after `diff()` and `dropna()`: the only NaN row is
the first one, so the retained values are the consecutive
differences). -/
def spotChanges : List PricePoint → List ℚ
  | [] => []
  | p :: ps => diffsFrom p.spot_price (ps.map (·.spot_price))

/-- Day-over-day futures price differences, as `spotChanges`. -/
def futureChanges : List PricePoint → List ℚ
  | [] => []
  | p :: ps => diffsFrom p.future_price (ps.map (·.future_price))

/-- Sample variance with `n − 1` normalization as a total function on
lists (the callers guard `n ≥ 2`). -/
def sampleVarV (xs : List ℚ) : ℚ :=
  let m := xs.sum / (xs.length : ℚ)
  (xs.map (fun x => (x - m) ^ 2)).sum / ((xs.length : ℚ) - 1)

/-- The fields of the `calculate_optimal_hedge_ratio` result dictionary
that are rational-valued.  The p-values, F statistic, standard error
and the correlation-scaled ratio involve square roots and distribution
tails (irrational in general) and are not modelled. -/
structure OptimalHedgeResult where
  optimal_hedge_ratio : ℚ
  hedge_ratio_ols : ℚ
  r_squared : ℚ
  intercept : ℚ
  slope : ℚ
  data_points : ℕ
deriving DecidableEq

/-- `HedgeRatioCalculator.calculate_optimal_hedge_ratio`
(`hedge_ratio_calculator.py` lines 20-101): optional trailing window
(Python truthiness: a zero or `None` window means "all data", as does a
window at least the series length), first differences with the NaN row
dropped, the minimum-variance ratio `Cov(Δspot,Δfuture)/Var(Δfuture)`
from the `ddof=1` covariance matrix, and the OLS regression of Δspot on
Δfuture with intercept in closed form (slope `Sxy/Sxx`, intercept
`ȳ − slope·x̄`, `R² = 1 − SSR/SST`). -/
def calculate_optimal_hedge_ratio (aligned_data : List PricePoint)
    (window_size : Option ℕ) : Except String (ℚ × OptimalHedgeResult) :=
  if aligned_data.isEmpty then .error "数据为空，无法计算套保比例"
  else
    let data := match window_size with
      | some w =>
        if w ≠ 0 ∧ w < aligned_data.length then
          aligned_data.drop (aligned_data.length - w)
        else aligned_data
      | none => aligned_data
    let xs := futureChanges data
    let ys := spotChanges data
    if ys.length < 2 then .error "数据量不足，无法计算套保比例"
    else
      let n : ℚ := (ys.length : ℚ)
      let mx := xs.sum / n
      let my := ys.sum / n
      let sxx := (xs.map (fun x => (x - mx) ^ 2)).sum
      let syy := (ys.map (fun y => (y - my) ^ 2)).sum
      let sxy := (List.zipWith (fun x y => (x - mx) * (y - my)) xs ys).sum
      let hedge_ratio_mv := (sxy / (n - 1)) / (sxx / (n - 1))
      let slope := sxy / sxx
      let intercept := my - slope * mx
      let ssr := (List.zipWith
        (fun x y => (y - (intercept + slope * x)) ^ 2) xs ys).sum
      let r_squared := 1 - ssr / syy
      .ok (hedge_ratio_mv,
        { optimal_hedge_ratio := hedge_ratio_mv
          hedge_ratio_ols := slope
          r_squared := r_squared
          intercept := intercept
          slope := slope
          data_points := ys.length })

/-- The rational-valued fields of the `calculate_hedge_effectiveness`
result dictionary; the two volatilities (square roots of these
variances) are not modelled. -/
structure EffectivenessResult where
  hedge_effectiveness : Option ℚ
  risk_reduction_rate : Option ℚ
  unhedged_variance : ℚ
  hedged_variance : ℚ
  variance_reduction : ℚ
deriving DecidableEq

/-- `HedgeRatioCalculator.calculate_hedge_effectiveness`
(`hedge_ratio_calculator.py` lines 103-153): hedged change
`Δspot − ratio·Δfuture`, variances with `ddof=1`,
`effectiveness = 1 − Var(hedged)/Var(Δspot)` (NaN — `none` — when
`Var(Δspot) = 0`, since numpy float division does not raise). -/
def calculate_hedge_effectiveness (aligned_data : List PricePoint)
    (hedge_ratio : ℚ) : Except String EffectivenessResult :=
  if aligned_data.isEmpty then .error "数据为空，无法计算套保有效性"
  else
    let ds := spotChanges aligned_data
    let df := futureChanges aligned_data
    let hedged := List.zipWith (fun s f => s - hedge_ratio * f) ds df
    if ds.length < 2 then .error "数据量不足，无法计算套保有效性"
    else
      let uv := sampleVarV ds
      let hv := sampleVarV hedged
      .ok { hedge_effectiveness :=
              if uv = 0 then none else some (1 - hv / uv)
            risk_reduction_rate :=
              if uv = 0 then none else some ((uv - hv) / uv)
            unhedged_variance := uv
            hedged_variance := hv
            variance_reduction := uv - hv }

/-- The spec's lockstep scenario: spots 100, 102, 101, 105, 103 and
futures moving at exactly half the spot differences. -/
def c5Series : List PricePoint :=
  [⟨0, 100, 50⟩, ⟨1, 102, 51⟩, ⟨2, 101, 101/2⟩, ⟨3, 105, 105/2⟩,
   ⟨4, 103, 103/2⟩]

/-- C5: on the lockstep series the minimum-variance ratio is exactly 2,
the regression R² is exactly 1, and the hedge effectiveness at ratio 2
is exactly 1 (zero residual variance). -/
theorem lockstep_hedge_ratio_exact :
    (calculate_optimal_hedge_ratio c5Series none).toOption.map
        (fun pr => (pr.1, pr.2.r_squared)) = some (2, 1) ∧
    (calculate_hedge_effectiveness c5Series 2).toOption.map
        (fun r => r.hedge_effectiveness) = some (some 1) := by
  constructor
  · norm_num [calculate_optimal_hedge_ratio, c5Series, spotChanges,
      futureChanges, diffsFrom, Except.toOption]
  · norm_num [calculate_hedge_effectiveness, c5Series, spotChanges,
      futureChanges, diffsFrom, sampleVarV, Except.toOption]

/-- pandas `Series.pct_change() * 100`: NaN first, then
`(xᵢ/xᵢ₋₁ − 1)·100`. -/
def pctChange100 (xs : List ℚ) : List (Option ℚ) :=
  match xs with
  | [] => []
  | x :: rest =>
    none :: List.zipWith (fun b a => some ((b / a - 1) * 100)) rest (x :: rest)

/-- One row of the frame built by `identify_stress_periods`: price row
plus the percent-change and extreme-day columns. -/
structure StressRow where
  date : ℕ
  spot_price : ℚ
  future_price : ℚ
  spot_price_change_pct : Option ℚ
  is_extreme : Bool
deriving DecidableEq

/-- The column construction of `identify_stress_periods`
(`stress_test.py` lines 41-47): percent changes and the
`|pct| > threshold` flag (false on the NaN first row, as a NaN
comparison is false). -/
def mkStressRows (data : List PricePoint) (threshold : ℚ) :
    List StressRow :=
  List.zipWith
    (fun p pc =>
      ⟨p.date, p.spot_price, p.future_price, pc,
        match pc with
        | none => false
        | some v => if threshold < |v| then true else false⟩)
    data (pctChange100 (data.map (·.spot_price)))

/-- The summary dictionary of `_create_stress_period_summary`
(`stress_test.py` lines 89-128).  The two intra-period volatility
fields are square roots of sample variances and are not modelled. -/
structure StressPeriod where
  start_date : ℕ
  end_date : ℕ
  duration_days : ℕ
  start_index : ℕ
  end_index : ℕ
  spot_price_change : ℚ
  spot_price_change_pct : ℚ
  future_price_change : ℚ
  future_price_change_pct : ℚ
  max_daily_spot_change : Option ℚ
  avg_daily_spot_change : Option ℚ
  stress_type : String
deriving DecidableEq

/-- `_create_stress_period_summary`: the summary dictionary of lines
104-118 is assembled without error, but the stress-type classification
at line 121 reads the name `price_change_threshold`, which is not
defined in any scope enclosing this method (it is only a parameter of
`identify_stress_periods`), so every call raises `NameError` before a
`StressPeriod` can be returned. -/
def createStressPeriodSummary (_period_rows : List StressRow)
    (_start_idx _end_idx : ℕ) : Except String StressPeriod :=
  .error "NameError: name price_change_threshold is not defined"

/-- The Calm/InStress scan loop of `identify_stress_periods`
(`stress_test.py` lines 50-84): entering stress on an extreme day,
leaving it on the first non-extreme day (the run then ends on the
previous row), emitting a summary when the run is long enough, and
closing out a run still open at the end of the series with the last
row. -/
def stressScan (minDays total : ℕ) (allRows : List StressRow) :
    ℕ → List StressRow → Bool → ℕ → List StressPeriod →
    Except String (List StressPeriod)
  | _idx, [], inStress, pstart, acc =>
    if inStress then
      let pend := total - 1
      let plen := pend - pstart + 1
      if minDays ≤ plen then do
        let sp ← createStressPeriodSummary
          ((allRows.drop pstart).take (pend + 1 - pstart)) pstart pend
        pure (acc ++ [sp])
      else pure acc
    else pure acc
  | idx, r :: rest, inStress, pstart, acc =>
    if r.is_extreme ∧ ¬inStress then
      stressScan minDays total allRows (idx + 1) rest true idx acc
    else if ¬r.is_extreme ∧ inStress then
      let pend := idx - 1
      let plen := pend - pstart + 1
      if minDays ≤ plen then do
        let sp ← createStressPeriodSummary
          ((allRows.drop pstart).take (pend + 1 - pstart)) pstart pend
        stressScan minDays total allRows (idx + 1) rest false pstart
          (acc ++ [sp])
      else stressScan minDays total allRows (idx + 1) rest false pstart acc
    else stressScan minDays total allRows (idx + 1) rest inStress pstart acc

/-- `StressTestAnalyzer.identify_stress_periods` (`stress_test.py`
lines 23-87). -/
def identify_stress_periods (aligned_data : List PricePoint)
    (price_change_threshold : ℚ) (min_consecutive_days : ℕ) :
    Except String (List StressPeriod) :=
  if aligned_data.isEmpty then .error "数据为空，无法识别压力时期"
  else
    let rows := mkStressRows aligned_data price_change_threshold
    stressScan min_consecutive_days rows.length rows 0 rows false 0 []

/-- `data.iloc[start_idx:end_idx+1]`: positional slice of the backtest
rows. -/
def ilocSlice (data : List BacktestRecord) (s e : ℕ) :
    List BacktestRecord :=
  (data.drop s).take (e + 1 - s)

/-- The stress module's `_calculate_max_drawdown` (`stress_test.py`
lines 397-413): unlike the engine's, it returns 0 on an empty series. -/
def stressMaxDrawdown (xs : List ℚ) : ℚ :=
  (maxDrawdown xs).getD 0

/-- The rational-valued fields of `_calculate_period_performance`
(`stress_test.py` lines 245-311); the two volatilities are kept as
their squares (sample variances, NaN — `none` — for a one-row slice)
and `risk_reduction_rate`, a ratio of the two square roots, is not
modelled. -/
structure PeriodPerformance where
  days : ℕ
  total_hedged_pnl : ℚ
  total_unhedged_pnl : ℚ
  total_spot_pnl : ℚ
  total_future_pnl : ℚ
  avg_daily_hedged_pnl : ℚ
  avg_daily_unhedged_pnl : ℚ
  hedged_variance : Option ℚ
  unhedged_variance : Option ℚ
  max_daily_loss_hedged : ℚ
  max_daily_loss_unhedged : ℚ
  profitable_days_hedged : ℕ
  profitable_days_unhedged : ℕ
  profitable_days_ratio_hedged : ℚ
  profitable_days_ratio_unhedged : ℚ
  var_95_hedged : ℚ
  var_95_unhedged : ℚ
  hedge_advantage : ℚ
  max_drawdown_hedged : ℚ
  max_drawdown_unhedged : ℚ
deriving DecidableEq

/-- `_calculate_period_performance`: `{}` (here `none`) on an empty
slice, otherwise the per-period metrics over exactly the given rows. -/
def calcPeriodPerformance (period_data : List BacktestRecord) :
    Option PeriodPerformance :=
  match period_data with
  | [] => none
  | r :: rs =>
    let rows := r :: rs
    let totalPnl := rows.map (·.total_pnl)
    let unhedgedPnl := rows.map (·.unhedged_pnl)
    let n := rows.length
    some
      { days := n
        total_hedged_pnl := totalPnl.sum
        total_unhedged_pnl := unhedgedPnl.sum
        total_spot_pnl := (rows.map (·.spot_pnl)).sum
        total_future_pnl := (rows.map (·.future_pnl)).sum
        avg_daily_hedged_pnl := totalPnl.sum / (n : ℚ)
        avg_daily_unhedged_pnl := unhedgedPnl.sum / (n : ℚ)
        hedged_variance := sampleVar totalPnl
        unhedged_variance := sampleVar unhedgedPnl
        max_daily_loss_hedged :=
          (rs.map (·.total_pnl)).foldl min r.total_pnl
        max_daily_loss_unhedged :=
          (rs.map (·.unhedged_pnl)).foldl min r.unhedged_pnl
        profitable_days_hedged := (totalPnl.filter (fun x => 0 < x)).length
        profitable_days_unhedged :=
          (unhedgedPnl.filter (fun x => 0 < x)).length
        profitable_days_ratio_hedged :=
          ((totalPnl.filter (fun x => 0 < x)).length : ℚ) / (n : ℚ)
        profitable_days_ratio_unhedged :=
          ((unhedgedPnl.filter (fun x => 0 < x)).length : ℚ) / (n : ℚ)
        var_95_hedged := percentileLinear totalPnl 5
        var_95_unhedged := percentileLinear unhedgedPnl 5
        hedge_advantage := totalPnl.sum - unhedgedPnl.sum
        max_drawdown_hedged :=
          stressMaxDrawdown (rows.map (·.total_pnl_cumulative))
        max_drawdown_unhedged :=
          stressMaxDrawdown (rows.map (·.unhedged_pnl_cumulative)) }

/-- `_test_specific_periods` (`stress_test.py` lines 210-243): for each
supplied period, the per-period metrics are computed over the
positional slice `iloc[start_index:end_index+1]` of the backtest
rows. -/
def testSpecificPeriods (data : List BacktestRecord)
    (periods : List StressPeriod) :
    List (Option PeriodPerformance × StressPeriod) :=
  periods.map (fun pd =>
    (calcPeriodPerformance (ilocSlice data pd.start_index pd.end_index), pd))

/-- Positional removal of rows `s..e` from a record list. -/
def dropRange (s e : ℕ) (l : List BacktestRecord) :
    List BacktestRecord :=
  l.take s ++ l.drop (e + 1)

/-- The data selection of `_get_normal_period_analysis` (`stress_test.py`
lines 313-337): when the analyzer's stored period list is non-empty,
drop each stored period's index range from the (progressively
re-indexed) frame; when it is empty — or when the removal empties the
frame — use the full record set. -/
def normalPeriodRows (stored : List StressPeriod)
    (data : List BacktestRecord) : List BacktestRecord :=
  let nd :=
    if stored.isEmpty then data
    else stored.foldl (fun d p => dropRange p.start_index p.end_index d) data
  if nd.isEmpty then data else nd

/-- The `period_info` attached to each stress result. -/
inductive PeriodInfo where
  | detected (p : StressPeriod)
  | custom (start_date end_date duration_days : ℕ)
deriving DecidableEq

/-- The dictionary returned by `run_stress_test`.  The `summary`
aggregation is not carried (its numeric aggregates average irrational
volatilities); only its raising behavior is modelled by
`stressSummaryCheck`. -/
structure StressTestOutcome where
  stress_results : List (Option PeriodPerformance)
  period_infos : List PeriodInfo
  test_type : String
  normal_rows : List BacktestRecord
  normal_result : Option PeriodPerformance
deriving DecidableEq

/-- The raising behavior of `_calculate_stress_summary` (`stress_test.py`
lines 348-395): an empty result list returns `{}` without error; a
period whose metrics dictionary is empty (`none`, from an empty slice)
raises `KeyError` when its `days` entry is read, and an empty
normal-period dictionary raises `KeyError` on
`avg_daily_hedged_pnl`. -/
def stressSummaryCheck (results : List (Option PeriodPerformance))
    (normal : Option PeriodPerformance) : Except String Unit :=
  if results.isEmpty then .ok ()
  else if results.any (·.isNone) then .error "KeyError: days"
  else if normal.isNone then .error "KeyError: avg_daily_hedged_pnl"
  else .ok ()

/-- `StressTestAnalyzer.run_stress_test` (`stress_test.py` lines
130-174), with the analyzer's stored stress-period list passed
explicitly as `stored`.  Branching mirrors Python truthiness: a custom
period wins, then a non-empty explicit period list, else the stored
periods (auto-detecting with the default thresholds when none are
stored).  The normal-period comparison always reads `stored` (or the
freshly auto-detected list in the final branch) — never the explicit
argument. -/
def run_stress_test (stored : List StressPeriod)
    (backtest_data : Option (List BacktestRecord))
    (stress_periods : Option (List StressPeriod))
    (custom_period : Option (ℕ × ℕ)) : Except String StressTestOutcome :=
  match backtest_data with
  | none => .error "回测结果无效"
  | some data =>
    match custom_period with
    | some (sd, ed) =>
      let period_data := data.filter
        (fun r => decide (sd ≤ r.date) && decide (r.date ≤ ed))
      if period_data.isEmpty then .error "指定时期无数据"
      else do
        let pr := calcPeriodPerformance period_data
        let normal_rows := normalPeriodRows stored data
        let normal := calcPeriodPerformance normal_rows
        let _ ← stressSummaryCheck [pr] normal
        .ok { stress_results := [pr]
              period_infos := [.custom sd ed period_data.length]
              test_type := "custom_period"
              normal_rows := normal_rows
              normal_result := normal }
    | none =>
      if (stress_periods.getD []).isEmpty then do
        let effStored ←
          if stored.isEmpty then
            identify_stress_periods
              (data.map (fun r => ⟨r.date, r.spot_price, r.future_price⟩))
              5 3
          else pure stored
        let trs := testSpecificPeriods data effStored
        let normal_rows := normalPeriodRows effStored data
        let normal := calcPeriodPerformance normal_rows
        let _ ← stressSummaryCheck (trs.map (·.1)) normal
        .ok { stress_results := trs.map (·.1)
              period_infos := trs.map (fun x => .detected x.2)
              test_type := "identified_periods"
              normal_rows := normal_rows
              normal_result := normal }
      else do
        let ps := stress_periods.getD []
        let trs := testSpecificPeriods data ps
        let normal_rows := normalPeriodRows stored data
        let normal := calcPeriodPerformance normal_rows
        let _ ← stressSummaryCheck (trs.map (·.1)) normal
        .ok { stress_results := trs.map (·.1)
              period_infos := trs.map (fun x => .detected x.2)
              test_type := "identified_periods"
              normal_rows := normal_rows
              normal_result := normal }

/-- A synthetic series with calm days around one run of five
consecutive days whose absolute daily spot change (+100% each day)
exceeds the default 5% threshold: the run spans aligned rows 2-6. -/
def c3Series : List PricePoint :=
  [⟨0, 100, 100⟩, ⟨1, 100, 100⟩, ⟨2, 200, 200⟩, ⟨3, 400, 400⟩,
   ⟨4, 800, 800⟩, ⟨5, 1600, 1600⟩, ⟨6, 3200, 3200⟩, ⟨7, 3200, 3200⟩,
   ⟨8, 3200, 3200⟩]

/-- C3 (code bug): on the synthetic five-day stress run with
`min_consecutive_days = 3`, `identify_stress_periods` does not return
the single expected `StressPeriod` — as soon as the qualifying run ends
it calls `_create_stress_period_summary`, which raises `NameError`
because line 121 of `stress_test.py` reads the undefined name
`price_change_threshold`. -/
theorem stress_detection_raises_nameerror :
    identify_stress_periods c3Series 5 3 =
      .error "NameError: name price_change_threshold is not defined" := by
  norm_num [identify_stress_periods, c3Series, mkStressRows, pctChange100,
    stressScan, createStressPeriodSummary, Bind.bind, Except.bind]

theorem cleanBuild_map_date (dir : HedgeDirection) (h q : ℚ)
    (ps : List PricePoint) (prev : PricePoint) (aT aU aS aF : ℚ) :
    (cleanBuild dir h q prev ps aT aU aS aF).map (·.date) =
      ps.map (·.date) := by
  induction ps generalizing prev aT aU aS aF with
  | nil => rfl
  | cons p ps' ih => simp [cleanBuild, ih]

/-- C4 (amended): each supplied period's metrics are computed over
exactly the positional rows `start_index..end_index` of the retained
record set; since retained row `i` carries aligned date `i+1` (the
first aligned row was dropped), those are the rows at aligned dates
`start_index+1 .. end_index+1` — one day after the period's recorded
date span, not the rows between its start and end dates. -/
theorem stress_slice_positions_shifted (p0 : PricePoint)
    (ps : List PricePoint) (h q cs : ℚ) (dir : HedgeDirection)
    (res : BacktestResult)
    (hres : run_backtest (p0 :: ps) h q dir cs = .ok res)
    (periods : List StressPeriod) (pd : StressPeriod)
    (hpd : pd ∈ periods) :
    (calcPeriodPerformance
        (ilocSlice res.data pd.start_index pd.end_index), pd) ∈
      testSpecificPeriods res.data periods ∧
    (ilocSlice res.data pd.start_index pd.end_index).map (·.date) =
      (((p0 :: ps).map (·.date)).drop (pd.start_index + 1)).take
        (pd.end_index + 1 - pd.start_index) := by
  constructor
  · exact List.mem_map_of_mem _ hpd
  · have hdata : res.data = runData (p0 :: ps) h q dir :=
      run_backtest_ok_data hres
    rw [hdata, runData_cons]
    simp [ilocSlice, List.map_take, List.map_drop, cleanBuild_map_date]

/-- Series used by the C4 witness and counterexample. -/
def c4Series : List PricePoint :=
  [⟨0, 100, 50⟩, ⟨1, 110, 55⟩, ⟨2, 120, 60⟩, ⟨3, 130, 65⟩]

/-- Backtest rows of `c4Series` (dates 1, 2, 3). -/
def c4Records : List BacktestRecord := runData c4Series 1 1 .short_hedge

/-- A stress period covering aligned rows 1-2 (dates 1 and 2), as
`identify_stress_periods` would record it. -/
def c4Period : StressPeriod :=
  { start_date := 1, end_date := 2, duration_days := 2, start_index := 1,
    end_index := 2, spot_price_change := 10,
    spot_price_change_pct := 100/11, future_price_change := 5,
    future_price_change_pct := 100/11,
    max_daily_spot_change := some 10, avg_daily_spot_change := some 10,
    stress_type := "高波动行情" }

/-- Counterexample to C4 as stated: for the period recorded on dates
1-2 (row indices 1-2), the positional slice actually tested holds the
rows dated 2 and 3, while the rows between the period's start and end
dates are those dated 1 and 2 — the two row sets differ. -/
theorem stress_slice_dates_counterexample :
    (ilocSlice c4Records c4Period.start_index c4Period.end_index).map
        (·.date) = [2, 3] ∧
    (c4Records.filter (fun r =>
        decide (c4Period.start_date ≤ r.date) &&
          decide (r.date ≤ c4Period.end_date))).map (·.date) = [1, 2] ∧
    ilocSlice c4Records c4Period.start_index c4Period.end_index ≠
      c4Records.filter (fun r =>
        decide (c4Period.start_date ≤ r.date) &&
          decide (r.date ≤ c4Period.end_date)) := by
  have h1 : (ilocSlice c4Records c4Period.start_index
      c4Period.end_index).map (·.date) = [2, 3] := by
    norm_num [c4Records, c4Series, runData_cons, cleanBuild, spotCoef,
      futureCoef, ilocSlice, c4Period]
  have h2 : (c4Records.filter (fun r =>
      decide (c4Period.start_date ≤ r.date) &&
        decide (r.date ≤ c4Period.end_date))).map (·.date) = [1, 2] := by
    norm_num [c4Records, c4Series, runData_cons, cleanBuild, spotCoef,
      futureCoef, c4Period, List.filter]
  refine ⟨h1, h2, fun heq => ?_⟩
  have h3 := congrArg (List.map (fun r : BacktestRecord => r.date)) heq
  rw [h1, h2] at h3
  simp at h3

/-- Witness for C4 (amended) at the concrete series and period of the
counterexample. -/
theorem stress_slice_positions_shifted_witness :
    run_backtest c4Series 1 1 .short_hedge 1 =
      .ok ((run_backtest c4Series 1 1 .short_hedge 1).toOption.getD
        default) ∧
    ((calcPeriodPerformance (ilocSlice ((run_backtest c4Series 1 1
          .short_hedge 1).toOption.getD default).data c4Period.start_index
        c4Period.end_index), c4Period) ∈
      testSpecificPeriods ((run_backtest c4Series 1 1
        .short_hedge 1).toOption.getD default).data [c4Period] ∧
    (ilocSlice ((run_backtest c4Series 1 1 .short_hedge
          1).toOption.getD default).data c4Period.start_index
        c4Period.end_index).map (·.date) =
      ((c4Series.map (·.date)).drop (c4Period.start_index + 1)).take
        (c4Period.end_index + 1 - c4Period.start_index)) := by
  have hok : run_backtest c4Series 1 1 .short_hedge 1 =
      .ok ((run_backtest c4Series 1 1 .short_hedge 1).toOption.getD
        default) := by rfl
  refine ⟨hok, ?_⟩
  exact stress_slice_positions_shifted ⟨0, 100, 50⟩
    [⟨1, 110, 55⟩, ⟨2, 120, 60⟩, ⟨3, 130, 65⟩] 1 1 1 .short_hedge
    _ hok [c4Period] c4Period (by simp)

theorem calcPeriodPerformance_isSome (l : List BacktestRecord)
    (hl : l ≠ []) : (calcPeriodPerformance l).isSome := by
  cases l with
  | nil => exact absurd rfl hl
  | cons r rs => simp [calcPeriodPerformance]

/-- C9: when the analyzer has no stored stress periods, calling
`run_stress_test` with an explicit non-empty period list computes the
normal-period comparison over the full record set: the passed periods
are never removed, because `_get_normal_period_analysis` reads only the
stored list. -/
theorem normal_analysis_ignores_passed_periods
    (data : List BacktestRecord) (ps : List StressPeriod)
    (hps : ps ≠ []) (hdata : data ≠ [])
    (hslices : ∀ pd ∈ ps,
      ilocSlice data pd.start_index pd.end_index ≠ []) :
    run_stress_test [] (some data) (some ps) none =
      .ok { stress_results := (testSpecificPeriods data ps).map (·.1)
            period_infos := (testSpecificPeriods data ps).map
              (fun x => PeriodInfo.detected x.2)
            test_type := "identified_periods"
            normal_rows := data
            normal_result := calcPeriodPerformance data } := by
  have hpe : (ps : List StressPeriod).isEmpty = false := by
    cases ps with
    | nil => exact absurd rfl hps
    | cons a l => rfl
  have hnormal : normalPeriodRows [] data = data := by
    simp [normalPeriodRows]
  have hne : ((testSpecificPeriods data ps).map (·.1)).isEmpty = false := by
    cases ps with
    | nil => exact absurd rfl hps
    | cons a l => rfl
  have hany : ((testSpecificPeriods data ps).map (·.1)).any
      (·.isNone) = false := by
    rw [List.any_eq_false]
    intro x hx
    simp only [testSpecificPeriods, List.map_map, List.mem_map] at hx
    obtain ⟨pd, hpd, rfl⟩ := hx
    have := calcPeriodPerformance_isSome _ (hslices pd hpd)
    intro hx2
    simp only [Function.comp_apply, Option.isNone_iff_eq_none] at hx2
    rw [hx2] at this
    simp at this
  have hnorm : (calcPeriodPerformance data).isNone = false := by
    have := calcPeriodPerformance_isSome data hdata
    simp_all
  have hcheck : stressSummaryCheck ((testSpecificPeriods data ps).map (·.1))
      (calcPeriodPerformance data) = .ok () := by
    simp [stressSummaryCheck, hne, hany, hnorm]
  simp [run_stress_test, hpe, hnormal, hcheck, Bind.bind, Except.bind]

/-- Record set used by the C9 witness. -/
def c9Data : List BacktestRecord :=
  [⟨1, 105, 54, 5, 4, 5, -4, 1, 5, 1, 5, 5, -4⟩,
   ⟨2, 110, 58, 5, 4, 5, -4, 1, 5, 2, 10, 10, -8⟩]

/-- Explicit stress period passed to `run_stress_test` by the C9
witness. -/
def c9Period : StressPeriod :=
  { start_date := 1, end_date := 1, duration_days := 1, start_index := 0,
    end_index := 0, spot_price_change := 5, spot_price_change_pct := 5,
    future_price_change := 4, future_price_change_pct := 8,
    max_daily_spot_change := some 5, avg_daily_spot_change := some 5,
    stress_type := "高波动行情" }

/-- Witness for C9: passing one explicit period over an analyzer with
no stored periods leaves the normal comparison on the full two-row
record set. -/
theorem normal_analysis_ignores_passed_periods_witness :
    run_stress_test [] (some c9Data) (some [c9Period]) none =
      .ok { stress_results := (testSpecificPeriods c9Data [c9Period]).map
              (·.1)
            period_infos := (testSpecificPeriods c9Data [c9Period]).map
              (fun x => PeriodInfo.detected x.2)
            test_type := "identified_periods"
            normal_rows := c9Data
            normal_result := calcPeriodPerformance c9Data } := by
  apply normal_analysis_ignores_passed_periods
  · simp
  · simp [c9Data]
  · intro pd hpd
    simp only [List.mem_singleton] at hpd
    subst hpd
    simp [ilocSlice, c9Data, c9Period]

/-- A small pandas DataFrame model for `align_data`: named value
columns and date-indexed rows holding one value per column. -/
structure DFrame where
  cols : List String
  rows : List (ℕ × List ℚ)
deriving DecidableEq

/-- `pd.merge(a, b, on='date', how='inner')`: a value column present in
both frames is renamed with the default `_x` (left) / `_y` (right)
suffix; rows are paired on equal dates, in left-frame order. -/
def mergeInnerOnDate (a b : DFrame) : DFrame :=
  { cols :=
      a.cols.map (fun c => if b.cols.contains c then c ++ "_x" else c) ++
        b.cols.map (fun c => if a.cols.contains c then c ++ "_y" else c)
    rows := a.rows.flatMap (fun ra =>
      (b.rows.filter (fun rb => decide (rb.1 = ra.1))).map
        (fun rb => (ra.1, ra.2 ++ rb.2))) }

/-- Insertion into a row list sorted ascending by date. -/
def insertRowByDate (r : ℕ × List ℚ) :
    List (ℕ × List ℚ) → List (ℕ × List ℚ)
  | [] => [r]
  | s :: ss => if r.1 < s.1 then r :: s :: ss else s :: insertRowByDate r ss

/-- `sort_values('date')` (valid inputs have unique dates, so
stability is irrelevant). -/
def sortRowsByDate : List (ℕ × List ℚ) → List (ℕ × List ℚ)
  | [] => []
  | r :: rs => insertRowByDate r (sortRowsByDate rs)

/-- `DataProcessor.align_data` (`data_processor.py` lines 192-213):
inner merge on date, empty-overlap error, sort ascending by date. -/
def align_data (spot_df future_df : DFrame) : Except String DFrame :=
  let merged := mergeInnerOnDate spot_df future_df
  if merged.rows.isEmpty then .error "现货和期货数据没有重叠的日期"
  else .ok { merged with rows := sortRowsByDate merged.rows }

theorem filter_date_eq_singleton (rows : List (ℕ × List ℚ))
    (hsort : rows.Pairwise (fun r s => r.1 < s.1)) (ra : ℕ × List ℚ)
    (hra : ra ∈ rows) :
    rows.filter (fun rb => decide (rb.1 = ra.1)) = [ra] := by
  induction rows with
  | nil => cases hra
  | cons r rs ih =>
    rcases List.pairwise_cons.mp hsort with ⟨hr, hrs⟩
    rcases List.mem_cons.mp hra with rfl | hra'
    · have hrest : rs.filter (fun rb => decide (rb.1 = ra.1)) = [] := by
        rw [List.filter_eq_nil_iff]
        intro b hb
        have := hr b hb
        simp
        omega
      simp [List.filter_cons, hrest]
    · have hlt := hr ra hra'
      have hne : ¬(r.1 = ra.1) := by omega
      simp [List.filter_cons, hne, ih hrs hra']

theorem bind_merge_self (all : List (ℕ × List ℚ))
    (hsort : all.Pairwise (fun r s => r.1 < s.1)) :
    ∀ sub : List (ℕ × List ℚ), (∀ x ∈ sub, x ∈ all) →
      sub.flatMap (fun ra =>
        (all.filter (fun rb => decide (rb.1 = ra.1))).map
          (fun rb => (ra.1, ra.2 ++ rb.2))) =
        sub.map (fun r => (r.1, r.2 ++ r.2)) := by
  intro sub
  induction sub with
  | nil => intro _; rfl
  | cons x xs ih =>
    intro hmem
    rw [List.flatMap_cons, filter_date_eq_singleton all hsort x
      (hmem x (List.mem_cons_self _ _))]
    rw [ih (fun y hy => hmem y (List.mem_cons_of_mem x hy))]
    rfl

theorem insertRowByDate_head (r : ℕ × List ℚ) (ss : List (ℕ × List ℚ))
    (h : ∀ s ∈ ss, r.1 < s.1) : insertRowByDate r ss = r :: ss := by
  cases ss with
  | nil => rfl
  | cons s ss' =>
    have := h s (List.mem_cons_self _ _)
    simp [insertRowByDate, this]

theorem sortRowsByDate_sorted_id (rows : List (ℕ × List ℚ))
    (hsort : rows.Pairwise (fun r s => r.1 < s.1)) :
    sortRowsByDate rows = rows := by
  induction rows with
  | nil => rfl
  | cons r rs ih =>
    rcases List.pairwise_cons.mp hsort with ⟨hr, hrs⟩
    rw [sortRowsByDate, ih hrs, insertRowByDate_head r rs hr]

/-- C7 (amended): aligning a valid aligned series `A` (non-empty,
strictly increasing dates, columns `spot_price` and `future_price`)
with itself preserves the dates in order and the price values, but
duplicates each price column under the merge suffixes `_x`/`_y`: the
result has columns `spot_price_x, future_price_x, spot_price_y,
future_price_y` with each row's values repeated, so it is not equal to
`A` — alignment is not idempotent as literally stated. -/
theorem align_self_duplicates_columns (A : DFrame)
    (hcols : A.cols = ["spot_price", "future_price"])
    (hne : A.rows ≠ [])
    (hsort : A.rows.Pairwise (fun r s => r.1 < s.1)) :
    align_data A A =
      .ok { cols := ["spot_price_x", "future_price_x", "spot_price_y",
              "future_price_y"]
            rows := A.rows.map (fun r => (r.1, r.2 ++ r.2)) } := by
  have hrows : A.rows.flatMap (fun ra =>
      (A.rows.filter (fun rb => decide (rb.1 = ra.1))).map
        (fun rb => (ra.1, ra.2 ++ rb.2))) =
      A.rows.map (fun r => (r.1, r.2 ++ r.2)) :=
    bind_merge_self A.rows hsort A.rows (fun x hx => hx)
  have hcolsMerged :
      A.cols.map (fun c => if A.cols.contains c then c ++ "_x" else c) ++
        A.cols.map (fun c => if A.cols.contains c then c ++ "_y" else c) =
      ["spot_price_x", "future_price_x", "spot_price_y",
        "future_price_y"] := by
    rw [hcols]
    rfl
  have hmapsort : sortRowsByDate (A.rows.map (fun r => (r.1, r.2 ++ r.2))) =
      A.rows.map (fun r => (r.1, r.2 ++ r.2)) := by
    apply sortRowsByDate_sorted_id
    exact (List.pairwise_map).mpr hsort
  have hmapne : (A.rows.map (fun r => (r.1, r.2 ++ r.2))).isEmpty = false := by
    cases hA : A.rows with
    | nil => exact absurd hA hne
    | cons r rs => rfl
  simp only [align_data, mergeInnerOnDate, hrows, hcolsMerged, hmapne,
    Bool.false_eq_true, if_false, hmapsort]

/-- A one-spot-one-future aligned frame with two dated rows, used by
the C7 witness and counterexample. -/
def c7Frame : DFrame :=
  ⟨["spot_price", "future_price"], [(0, [100, 50]), (1, [101, 51])]⟩

/-- Witness for C7 (amended), at a concrete valid aligned frame. -/
theorem align_self_duplicates_columns_witness :
    align_data c7Frame c7Frame =
      .ok { cols := ["spot_price_x", "future_price_x", "spot_price_y",
              "future_price_y"]
            rows := c7Frame.rows.map (fun r => (r.1, r.2 ++ r.2)) } := by
  apply align_self_duplicates_columns
  · rfl
  · simp [c7Frame]
  · simp [c7Frame]

/-- Counterexample to C7 as stated: aligning the concrete aligned frame
with itself does not return the frame itself (the merge renames and
duplicates the price columns). -/
theorem align_self_not_idempotent_counterexample :
    align_data c7Frame c7Frame ≠ .ok c7Frame := by
  intro heq
  have hval : align_data c7Frame c7Frame =
      .ok { cols := ["spot_price_x", "future_price_x", "spot_price_y",
              "future_price_y"]
            rows := [(0, [100, 50, 100, 50]), (1, [101, 51, 101, 51])] } := by
    rfl
  rw [hval] at heq
  have hc := congrArg DFrame.cols ((Except.ok.injEq _ _).mp heq)
  exact absurd hc (by decide)

end HedgeSync
